import Mathlib

/-!
Verification of the go-scad core: the turtle state tracker and the stroke
outliner that converts a recorded stroke path into an OpenSCAD polygon
vertex list, together with the numeric coordinate formatter.

The embedding mirrors `main.go`:
* floating point coordinates and angles are modelled as real numbers;
* `formatFloat` (which is digit manipulation on the decimal expansion)
  is modelled over the rationals so it stays executable;
* the outliner `writePolygon` is modelled as the ordered list of the
  coordinate pairs passed to `outPoint`, i.e. the emitted polygon
  vertices (the surrounding OpenSCAD text is pure formatting);
* the mutable two-pass loop over the path indices is modelled by a
  fuel-indexed recursion (`visitsGo`) recording each loop-body execution
  as the pair (index, direction); the fuel `2 * length` strictly exceeds
  the number of iterations the Go loop performs.
-/

namespace GoScad

/-- Degree to radian conversion, from `degToRad` in main.go. -/
noncomputable def degToRad (deg : ℝ) : ℝ := deg * Real.pi / 180

/-- Radian to degree conversion, from `radToDeg` in main.go. -/
noncomputable def radToDeg (rad : ℝ) : ℝ := rad * 180 / Real.pi

/-- Cosine of an angle in degrees, from `degCos` in main.go. -/
noncomputable def degCos (deg : ℝ) : ℝ := Real.cos (degToRad deg)

/-- Sine of an angle in degrees, from `degSin` in main.go. -/
noncomputable def degSin (deg : ℝ) : ℝ := Real.sin (degToRad deg)

/-- Go's `math.Atan2(y, x)`: the argument of the point `(x, y)`,
in `(-pi, pi]`.  Modelled by the complex argument. -/
noncomputable def atan2 (y x : ℝ) : ℝ := Complex.arg ⟨x, y⟩

/-- One centerline sample, from `TurtlePoint` in main.go.  Go stores
`EndCapSides` as `int`; every value the program ever stores there is
non-negative (default 60, and `end_cap_sides` fatally rejects values
below 2), so it is modelled as a natural number. -/
structure TurtlePoint where
  X : ℝ
  Y : ℝ
  Thickness : ℝ
  EndCapSides : ℕ

/-- The Go zero value of `TurtlePoint` (used as the out-of-range default
for list indexing; never reached on in-range indices). -/
def defaultPt : TurtlePoint := ⟨0, 0, 0, 0⟩

/-- A recorded stroke path, from `TurtlePolygon` in main.go. -/
structure TurtlePolygon where
  Points : List TurtlePoint
  Headings : List ℝ

/-! ## The coordinate formatter, over the rationals

`formatFloat` in main.go formats with `strconv.FormatFloat(n, 'f', 6, 64)`
(sign, integer digits, a dot, exactly six fraction digits, the magnitude
rounded to the nearest 6-place decimal; none of the inputs considered
here is a tie), then applies the regular expression `\.?0+$`
(replace the maximal trailing run of at least one zero, together with a
dot immediately preceding that run, by nothing) and finally rewrites the
exact string `-0` to `0`. -/

/-- The effect of `stripZeroes.ReplaceAllString(str, "")` for the
anchored pattern: drop the maximal trailing run of `0` characters (if
nonempty) and, when the character just before that run is `.`, the dot
as well. -/
def stripTrailing (s : String) : String :=
  let r := s.data.reverse
  let zs := r.takeWhile (fun c => c = '0')
  if zs = [] then s
  else
    let rest := r.dropWhile (fun c => c = '0')
    let rest2 := match rest with
      | '.' :: t => t
      | t => t
    String.mk rest2.reverse

/-- `formatFloat` from main.go over the rationals: round the magnitude to
six decimal places, print sign, integer part, dot and zero-padded
six-digit fraction, strip trailing zeroes (and the dot when everything
after it is stripped), and normalise `-0` to `0`. -/
def formatFloat (q : ℚ) : String :=
  let m : ℕ := (round (|q| * 1000000)).toNat
  let fracStr := toString (m % 1000000)
  let padded := String.mk (List.replicate (6 - fracStr.length) '0') ++ fracStr
  let str := (if q < 0 then "-" else "") ++ toString (m / 1000000) ++ "." ++ padded
  let str2 := stripTrailing str
  if str2 = "-0" then "0" else str2

/-! ## The stroke outliner

`writePolygon` in main.go renders one polygon by pushing coordinate
pairs through `outPoint`.  The embedding records exactly that ordered
list of `(x, y)` pairs; the surrounding OpenSCAD text and the
`isLast` separator flag are pure formatting. -/

/-- The vertex offset pattern used everywhere in `writePolygon`:
`(point.X + point.Thickness/2*degCos(angle),
  point.Y + point.Thickness/2*degSin(angle))`. -/
noncomputable def capOffset (p : TurtlePoint) (ang : ℝ) : ℝ × ℝ :=
  (p.X + p.Thickness / 2 * degCos ang, p.Y + p.Thickness / 2 * degSin ang)

/-- The begin cap drawn when the loop visits `i == 0`: vertices for
`j = 0 .. EndCapSides/2` at angles `Headings[0] - 90 - j*360/EndCapSides`. -/
noncomputable def beginCap (poly : TurtlePolygon) : List (ℝ × ℝ) :=
  let point := poly.Points.getD 0 defaultPt
  let headingBegin := poly.Headings.getD 0 0
  (List.range (point.EndCapSides / 2 + 1)).map fun (j : ℕ) =>
    capOffset point (headingBegin - 90 - (j : ℝ) * 360 / (point.EndCapSides : ℝ))

/-- The end cap drawn when the loop visits `i == len(Points)-1`:
vertices for `j = 0 .. EndCapSides/2` at angles
`Headings[i-1] + 90 - j*360/EndCapSides`. -/
noncomputable def endCap (poly : TurtlePolygon) (i : ℕ) : List (ℝ × ℝ) :=
  let point := poly.Points.getD i defaultPt
  let headingEnd := poly.Headings.getD (i - 1) 0
  (List.range (point.EndCapSides / 2 + 1)).map fun (j : ℕ) =>
    capOffset point (headingEnd + 90 - (j : ℝ) * 360 / (point.EndCapSides : ℝ))

/-- `headingPrev` at a join: `Headings[i-1]` on the forward pass
(`d = 1`), `Headings[i]` on the backward pass. -/
def headingPrevAt (poly : TurtlePolygon) (i : ℕ) (d : ℤ) : ℝ :=
  if d = 1 then poly.Headings.getD (i - 1) 0 else poly.Headings.getD i 0

/-- `headingNext` at a join: `Headings[i]` on the forward pass,
`Headings[i-1]` on the backward pass. -/
def headingNextAt (poly : TurtlePolygon) (i : ℕ) (d : ℤ) : ℝ :=
  if d = 1 then poly.Headings.getD i 0 else poly.Headings.getD (i - 1) 0

/-- Point 1 of the intersection computation: `Points[i-d]` offset along
`headingPrev + 90*d`. -/
noncomputable def joinCorner1 (poly : TurtlePolygon) (i : ℕ) (d : ℤ) : ℝ × ℝ :=
  capOffset (poly.Points.getD ((i : ℤ) - d).toNat defaultPt)
    (headingPrevAt poly i d + 90 * (d : ℝ))

/-- Point 2 of the intersection computation: `Points[i]` offset along
`headingPrev + 90*d`. -/
noncomputable def joinCorner2 (poly : TurtlePolygon) (i : ℕ) (d : ℤ) : ℝ × ℝ :=
  capOffset (poly.Points.getD i defaultPt) (headingPrevAt poly i d + 90 * (d : ℝ))

/-- Point 3 of the intersection computation: `Points[i]` offset along
`headingNext + 90*d`. -/
noncomputable def joinCorner3 (poly : TurtlePolygon) (i : ℕ) (d : ℤ) : ℝ × ℝ :=
  capOffset (poly.Points.getD i defaultPt) (headingNextAt poly i d + 90 * (d : ℝ))

/-- Point 4 of the intersection computation: `Points[i+d]` offset along
`headingNext + 90*d`. -/
noncomputable def joinCorner4 (poly : TurtlePolygon) (i : ℕ) (d : ℤ) : ℝ × ℝ :=
  capOffset (poly.Points.getD ((i : ℤ) + d).toNat defaultPt)
    (headingNextAt poly i d + 90 * (d : ℝ))

/-- The denominator of the two-point-form line intersection:
`(x1-x2)*(y3-y4) - (y1-y2)*(x3-x4)`.  main.go divides by it with no
guard of any kind. -/
noncomputable def denomAt (poly : TurtlePolygon) (i : ℕ) (d : ℤ) : ℝ :=
  ((joinCorner1 poly i d).1 - (joinCorner2 poly i d).1)
    * ((joinCorner3 poly i d).2 - (joinCorner4 poly i d).2)
  - ((joinCorner1 poly i d).2 - (joinCorner2 poly i d).2)
    * ((joinCorner3 poly i d).1 - (joinCorner4 poly i d).1)

/-- The x coordinate of the line intersection at a non-collinear join. -/
noncomputable def interX (poly : TurtlePolygon) (i : ℕ) (d : ℤ) : ℝ :=
  (((joinCorner1 poly i d).1 * (joinCorner2 poly i d).2
      - (joinCorner1 poly i d).2 * (joinCorner2 poly i d).1)
    * ((joinCorner3 poly i d).1 - (joinCorner4 poly i d).1)
   - ((joinCorner1 poly i d).1 - (joinCorner2 poly i d).1)
    * ((joinCorner3 poly i d).1 * (joinCorner4 poly i d).2
      - (joinCorner3 poly i d).2 * (joinCorner4 poly i d).1)) / denomAt poly i d

/-- The y coordinate of the line intersection at a non-collinear join. -/
noncomputable def interY (poly : TurtlePolygon) (i : ℕ) (d : ℤ) : ℝ :=
  (((joinCorner1 poly i d).1 * (joinCorner2 poly i d).2
      - (joinCorner1 poly i d).2 * (joinCorner2 poly i d).1)
    * ((joinCorner3 poly i d).2 - (joinCorner4 poly i d).2)
   - ((joinCorner1 poly i d).2 - (joinCorner2 poly i d).2)
    * ((joinCorner3 poly i d).1 * (joinCorner4 poly i d).2
      - (joinCorner3 poly i d).2 * (joinCorner4 poly i d).1)) / denomAt poly i d

/-- The join branch of `writePolygon` at an interior index: one direct
offset vertex when `headingPrev == headingNext`, otherwise the
two-point-form intersection vertex (an unguarded division). -/
noncomputable def joinAt (poly : TurtlePolygon) (i : ℕ) (d : ℤ) : List (ℝ × ℝ) :=
  if headingPrevAt poly i d = headingNextAt poly i d then
    [capOffset (poly.Points.getD i defaultPt) (headingPrevAt poly i d + 90 * (d : ℝ))]
  else
    [(interX poly i d, interY poly i d)]

/-- One execution of the loop body of `writePolygon` at index `i` with
direction `d`: the begin cap at index 0, the end cap at the last index,
a join at every interior index. -/
noncomputable def emitAt (poly : TurtlePolygon) (i : ℕ) (d : ℤ) : List (ℝ × ℝ) :=
  if i = 0 then beginCap poly
  else if i = poly.Points.length - 1 then endCap poly i
  else joinAt poly i d

/-- The control flow of the two-pass loop of `writePolygon`, with fuel:
records `(i, d)` for each loop body execution, flips `d` after
processing the last index, and breaks after processing `i == 1` with
the flipped direction `-1`.  `i - 1` is natural subtraction; the loop
only ever decrements from `i ≥ 1` (and `i ≥ 2` before the final visit),
matching the Go `int` arithmetic. -/
def visitsGo (last : ℕ) : ℕ → ℤ → ℕ → List (ℕ × ℤ)
  | 0, _, _ => []
  | fuel + 1, d, i =>
    let d2 := if i = last ∧ d = 1 then -1 else d
    if i = 1 ∧ d2 = -1 then [(i, d)]
    else (i, d) :: visitsGo last fuel d2 (if d2 = 1 then i + 1 else i - 1)

/-- The full visit sequence of the two-pass loop.  The fuel
`2 * len(Points)` strictly exceeds the `2*(len-1)` iterations the Go
loop performs on a path of at least two points. -/
def visits (poly : TurtlePolygon) : List (ℕ × ℤ) :=
  visitsGo (poly.Points.length - 1) (2 * poly.Points.length) 1 0

/-- The degenerate single-point branch of `writePolygon`: a full circle
of `EndCapSides` vertices at angles `j*360/EndCapSides`, `j = 0 ..
EndCapSides - 1`. -/
noncomputable def singleCap (p : TurtlePoint) : List (ℝ × ℝ) :=
  (List.range p.EndCapSides).map fun (j : ℕ) =>
    capOffset p ((j : ℝ) * 360 / (p.EndCapSides : ℝ))

/-- `writePolygon` from main.go, as the ordered list of emitted
vertices. -/
noncomputable def writePolygon (poly : TurtlePolygon) : List (ℝ × ℝ) :=
  if poly.Points.length = 1 then singleCap (poly.Points.getD 0 defaultPt)
  else (visits poly).flatMap fun v => emitAt poly v.1 v.2

/-- The interior joins produced by the forward pass, in visit order
(`i = 1 .. len-2`, `d = 1`). -/
noncomputable def interiorFwd (poly : TurtlePolygon) : List (ℝ × ℝ) :=
  ((List.range (poly.Points.length - 2)).map fun k => k + 1).flatMap
    fun i => emitAt poly i 1

/-- The interior joins produced by the backward pass, in visit order
(`i = len-2 .. 1`, `d = -1`). -/
noncomputable def interiorBwd (poly : TurtlePolygon) : List (ℝ × ℝ) :=
  ((List.range (poly.Points.length - 2)).map
      fun k => poly.Points.length - 2 - k).flatMap
    fun i => emitAt poly i (-1)

/-! ## The turtle state tracker

The host functions installed on the JavaScript interpreter in main.go,
as a command language over an explicit state.  A fatal `log.Fatalf`
(invalid `end_cap_sides`, or the `penup` point/heading consistency
check) aborts the whole conversion: it is modelled as `none`.  `penup`
hands the finished path to `writePolygon`; the model returns the
finalized `TurtlePolygon` itself, the outliner being modelled
separately. -/

/-- The drawing commands of the external interface (value-setting
forms; the zero-argument getter forms of `pensize` and `end_cap_sides`
read state without mutating it). -/
inductive Cmd where
  | pendown
  | penup
  | pensize (v : ℝ)
  | endCapSides (n : ℤ)
  | forward (dist : ℝ)
  | right (deg : ℝ)
  | left (deg : ℝ)
  | setpos (x y : ℝ)

/-- The internal state variables of `jsToScad` in main.go. -/
structure TurtleState where
  pendown : Bool
  penSize : ℝ
  endCapSides : ℕ
  x : ℝ
  y : ℝ
  heading : ℝ
  polygon : TurtlePolygon

/-- The initial state of `jsToScad`: pen up, width 1, 60 cap sides,
cursor at the origin heading 0, and the zero-valued polygon. -/
def initState : TurtleState :=
  ⟨false, 1, 60, 0, 0, 0, ⟨[], []⟩⟩

/-- The `heading()` host function: reads `turtleHeading`. -/
def headingRead (s : TurtleState) : ℝ := s.heading

/-- One command execution: `none` models `log.Fatalf`; the polygon list
collects the stroke paths finalized by this command. -/
noncomputable def step (s : TurtleState) :
    Cmd → Option (TurtleState × List TurtlePolygon)
  | .pendown =>
    if s.pendown then some (s, [])
    else
      let poly2 : TurtlePolygon := ⟨[⟨s.x, s.y, s.penSize, s.endCapSides⟩], []⟩
      some ({ s with pendown := true, polygon := poly2 }, [])
  | .penup =>
    if s.pendown then
      if s.polygon.Points.length ≠ s.polygon.Headings.length + 1 then none
      else some ({ s with pendown := false }, [s.polygon])
    else some (s, [])
  | .pensize v => some ({ s with penSize := v }, [])
  | .endCapSides n =>
    if n < 2 ∨ n % 2 = 1 then none
    else some ({ s with endCapSides := n.toNat }, [])
  | .forward dist =>
    let x2 := s.x + dist * degCos s.heading
    let y2 := s.y + dist * degSin s.heading
    if s.pendown then
      let poly2 : TurtlePolygon :=
        ⟨s.polygon.Points ++ [⟨x2, y2, s.penSize, s.endCapSides⟩],
         s.polygon.Headings ++ [s.heading]⟩
      some ({ s with x := x2, y := y2, polygon := poly2 }, [])
    else some ({ s with x := x2, y := y2 }, [])
  | .right deg => some ({ s with heading := s.heading - deg }, [])
  | .left deg => some ({ s with heading := s.heading + deg }, [])
  | .setpos px py =>
    let h2 := radToDeg (atan2 (py - s.y) (px - s.x))
    if s.pendown then
      let poly2 : TurtlePolygon :=
        ⟨s.polygon.Points ++ [⟨px, py, s.penSize, s.endCapSides⟩],
         s.polygon.Headings ++ [h2]⟩
      some ({ s with x := px, y := py, polygon := poly2 }, [])
    else some ({ s with x := px, y := py }, [])

/-- Executing a command list from a state, collecting the finalized
stroke paths in pen-up order; a fatal error anywhere aborts the run. -/
noncomputable def run (s : TurtleState) :
    List Cmd → Option (TurtleState × List TurtlePolygon)
  | [] => some (s, [])
  | c :: cs =>
    (step s c).bind fun r =>
      (run r.1 cs).map fun r2 => (r2.1, r.2 ++ r2.2)

/-! ## Concrete inputs used to exercise the definitions -/

/-- A three-point collinear stroke path: pen width 2, 4 cap facets. -/
def collinearPoly : TurtlePolygon :=
  ⟨[⟨0, 0, 2, 4⟩, ⟨1, 0, 2, 4⟩, ⟨2, 0, 2, 4⟩], [0, 0]⟩

/-- The doubling-back stroke path traced by `forward(1)` followed by a
half-turn and `forward(1)` back, pen width 2: at the interior join the
two offset edge lines are parallel and distinct, so the intersection
denominator is exactly zero. -/
def reversalPoly : TurtlePolygon :=
  ⟨[⟨0, 0, 2, 4⟩, ⟨1, 0, 2, 4⟩, ⟨0, 0, 2, 4⟩], [0, 180]⟩

/-- The two-point end-to-end scenario path: points `[(0,0),(1,0)]`,
heading `[0]`, width 2, 4 cap facets. -/
def segmentPoly : TurtlePolygon :=
  ⟨[⟨0, 0, 2, 4⟩, ⟨1, 0, 2, 4⟩], [0]⟩

/-- The state after `pendown()` from the initial state. -/
def pendownState : TurtleState :=
  ⟨true, 1, 60, 0, 0, 0, ⟨[⟨0, 0, 1, 60⟩], []⟩⟩

/-- A pen-down state whose path violates the points/headings length
invariant (unreachable in any run; exercises the penup consistency
check). -/
def badState : TurtleState :=
  ⟨true, 1, 60, 0, 0, 0, ⟨[], []⟩⟩

/-- The state reached from `pendownState` by `setpos(3, 4)` (the
subtractions are written as the interpreter computes them). -/
noncomputable def setposState : TurtleState :=
  ⟨true, 1, 60, 3, 4, 0,
   ⟨[⟨0, 0, 1, 60⟩, ⟨3, 4, 1, 60⟩], [radToDeg (atan2 (4 - 0) (3 - 0))]⟩⟩

/-- The state reached from `pendownState` by `pensize(-1)`. -/
def negWidthState : TurtleState :=
  ⟨true, -1, 60, 0, 0, 0, ⟨[⟨0, 0, 1, 60⟩], []⟩⟩

/-- The state reached from `negWidthState` by `forward(1)` (the
coordinate arithmetic is written as the interpreter computes it). -/
noncomputable def negFwdState : TurtleState :=
  ⟨true, -1, 60, 0 + 1 * degCos 0, 0 + 1 * degSin 0, 0,
   ⟨[⟨0, 0, 1, 60⟩, ⟨0 + 1 * degCos 0, 0 + 1 * degSin 0, -1, 60⟩], [0]⟩⟩

end GoScad

namespace GoScad

/-- C9: The coordinate formatter rounds to 6 decimal places, strips
trailing zeroes and a trailing decimal point, and normalises negative
zero: `formatFloat 1 = "1"`, `formatFloat (-2.5) = "-2.5"`, and
`formatFloat (-0.0000001)` (which rounds to `-0` at 6 places) `= "0"`. -/
theorem formatFloat_spec :
    formatFloat 1 = "1" ∧
    formatFloat (-2.5) = "-2.5" ∧
    formatFloat (-0.0000001) = "0" := by
  refine ⟨?_, ?_, ?_⟩
  · have habs : |(1 : ℚ)| = 1 := by norm_num
    have h : round ((1 : ℚ) * 1000000) = 1000000 := by norm_num [round_eq]
    have hlt : ¬ ((1 : ℚ) < 0) := by norm_num
    simp only [formatFloat, habs, h]
    rw [if_neg hlt]
    decide
  · rw [show (-2.5 : ℚ) = -5/2 from by norm_num]
    have habs : |(-5/2 : ℚ)| = 5/2 := by rw [abs_of_nonpos (by norm_num)]; norm_num
    have h : round ((5/2 : ℚ) * 1000000) = 2500000 := by norm_num [round_eq]
    have hlt : (-5/2 : ℚ) < 0 := by norm_num
    simp only [formatFloat, habs, h]
    rw [if_pos hlt]
    decide
  · rw [show (-0.0000001 : ℚ) = -1/10000000 from by norm_num]
    have habs : |(-1/10000000 : ℚ)| = 1/10000000 := by
      rw [abs_of_nonpos (by norm_num)]; norm_num
    have h : round ((1/10000000 : ℚ) * 1000000) = 0 := by norm_num [round_eq]
    have hlt : (-1/10000000 : ℚ) < 0 := by norm_num
    simp only [formatFloat, habs, h]
    rw [if_pos hlt]
    decide

/-! ## Degree trigonometry at the concrete angles of the test paths -/

lemma degCos_neg (x : ℝ) : degCos (-x) = degCos x := by
  show Real.cos (-x * Real.pi / 180) = Real.cos (x * Real.pi / 180)
  rw [neg_mul, neg_div, Real.cos_neg]

lemma degSin_neg (x : ℝ) : degSin (-x) = -degSin x := by
  show Real.sin (-x * Real.pi / 180) = -Real.sin (x * Real.pi / 180)
  rw [neg_mul, neg_div, Real.sin_neg]

lemma degCos_zero : degCos 0 = 1 := by
  show Real.cos (0 * Real.pi / 180) = 1
  rw [zero_mul, zero_div, Real.cos_zero]

lemma degSin_zero : degSin 0 = 0 := by
  show Real.sin (0 * Real.pi / 180) = 0
  rw [zero_mul, zero_div, Real.sin_zero]

lemma degCos_ninety : degCos 90 = 0 := by
  show Real.cos (90 * Real.pi / 180) = 0
  rw [show (90 : ℝ) * Real.pi / 180 = Real.pi / 2 by ring, Real.cos_pi_div_two]

lemma degSin_ninety : degSin 90 = 1 := by
  show Real.sin (90 * Real.pi / 180) = 1
  rw [show (90 : ℝ) * Real.pi / 180 = Real.pi / 2 by ring, Real.sin_pi_div_two]

lemma degCos_oneEighty : degCos 180 = -1 := by
  show Real.cos (180 * Real.pi / 180) = -1
  rw [show (180 : ℝ) * Real.pi / 180 = Real.pi by ring, Real.cos_pi]

lemma degSin_oneEighty : degSin 180 = 0 := by
  show Real.sin (180 * Real.pi / 180) = 0
  rw [show (180 : ℝ) * Real.pi / 180 = Real.pi by ring, Real.sin_pi]

lemma degCos_twoSeventy : degCos 270 = 0 := by
  show Real.cos (270 * Real.pi / 180) = 0
  rw [show (270 : ℝ) * Real.pi / 180 = Real.pi + Real.pi / 2 by ring,
    Real.cos_add, Real.cos_pi, Real.cos_pi_div_two, Real.sin_pi,
    Real.sin_pi_div_two]
  ring

lemma degSin_twoSeventy : degSin 270 = -1 := by
  show Real.sin (270 * Real.pi / 180) = -1
  rw [show (270 : ℝ) * Real.pi / 180 = Real.pi + Real.pi / 2 by ring,
    Real.sin_add, Real.cos_pi, Real.cos_pi_div_two, Real.sin_pi,
    Real.sin_pi_div_two]
  ring

/-- C6: a degenerate single-point stroke with `EndCapSides = n` yields
exactly `n` vertices, the `j`-th on the circle of radius `Thickness/2`
around the point at angle `j * (360/n)` degrees, starting at angle 0 and
proceeding one full turn in facet order. -/
theorem single_point_stroke (p : TurtlePoint) (hs : List ℝ) :
    writePolygon ⟨[p], hs⟩ =
      (List.range p.EndCapSides).map (fun (j : ℕ) =>
        (p.X + p.Thickness / 2 * degCos ((j : ℝ) * (360 / (p.EndCapSides : ℝ))),
         p.Y + p.Thickness / 2 * degSin ((j : ℝ) * (360 / (p.EndCapSides : ℝ))))) ∧
    (writePolygon ⟨[p], hs⟩).length = p.EndCapSides := by
  have h1 : writePolygon ⟨[p], hs⟩ = singleCap p := by
    simp [writePolygon]
  constructor
  · rw [h1]
    unfold singleCap
    apply List.map_congr_left
    intro j hj
    unfold capOffset
    rw [mul_div_assoc]
  · rw [h1]
    simp [singleCap]

/-- C3: at an interior join whose two adjacent headings coincide, the
outliner emits exactly one vertex, at `Points[i]` offset by
`Thickness/2` in direction `headingPrev + 90*d`; the collinear branch
contains no intersection computation and no division by a geometric
denominator. -/
theorem collinear_join (poly : TurtlePolygon) (i : ℕ) (d : ℤ)
    (h0 : i ≠ 0) (hl : i ≠ poly.Points.length - 1)
    (heq : headingPrevAt poly i d = headingNextAt poly i d) :
    emitAt poly i d =
      [((poly.Points.getD i defaultPt).X +
          (poly.Points.getD i defaultPt).Thickness / 2 *
            degCos (headingPrevAt poly i d + 90 * (d : ℝ)),
        (poly.Points.getD i defaultPt).Y +
          (poly.Points.getD i defaultPt).Thickness / 2 *
            degSin (headingPrevAt poly i d + 90 * (d : ℝ)))] := by
  unfold emitAt
  rw [if_neg h0, if_neg hl]
  unfold joinAt
  rw [if_pos heq]
  rfl

/-- Witness for C3 on the concrete collinear three-point path. -/
theorem collinear_join_witness :
    (1 : ℕ) ≠ 0 ∧ (1 : ℕ) ≠ collinearPoly.Points.length - 1 ∧
    headingPrevAt collinearPoly 1 1 = headingNextAt collinearPoly 1 1 ∧
    emitAt collinearPoly 1 1 =
      [((collinearPoly.Points.getD 1 defaultPt).X +
          (collinearPoly.Points.getD 1 defaultPt).Thickness / 2 *
            degCos (headingPrevAt collinearPoly 1 1 + 90 * ((1 : ℤ) : ℝ)),
        (collinearPoly.Points.getD 1 defaultPt).Y +
          (collinearPoly.Points.getD 1 defaultPt).Thickness / 2 *
            degSin (headingPrevAt collinearPoly 1 1 + 90 * ((1 : ℤ) : ℝ)))] :=
  ⟨by decide, by decide, rfl,
    collinear_join collinearPoly 1 1 (by decide) (by decide) rfl⟩

/-! ## The points/headings invariant of the turtle tracker -/

lemma step_inv (s : TurtleState) (c : Cmd) (s2 : TurtleState)
    (out : List TurtlePolygon)
    (hs : s.pendown = true → s.polygon.Points.length = s.polygon.Headings.length + 1)
    (h : step s c = some (s2, out)) :
    s2.pendown = true → s2.polygon.Points.length = s2.polygon.Headings.length + 1 := by
  cases c
  case pendown =>
    simp only [step] at h
    by_cases hp : s.pendown = true
    · rw [if_pos hp] at h
      simp only [Option.some.injEq, Prod.mk.injEq] at h
      obtain ⟨rfl, rfl⟩ := h
      exact hs
    · rw [if_neg hp] at h
      simp only [Option.some.injEq, Prod.mk.injEq] at h
      obtain ⟨rfl, rfl⟩ := h
      intro _
      rfl
  case penup =>
    simp only [step] at h
    by_cases hp : s.pendown = true
    · rw [if_pos hp] at h
      by_cases hbad : s.polygon.Points.length ≠ s.polygon.Headings.length + 1
      · rw [if_pos hbad] at h
        exact Option.noConfusion h
      · rw [if_neg hbad] at h
        simp only [Option.some.injEq, Prod.mk.injEq] at h
        obtain ⟨rfl, rfl⟩ := h
        intro hpd2
        exact Bool.noConfusion hpd2
    · rw [if_neg hp] at h
      simp only [Option.some.injEq, Prod.mk.injEq] at h
      obtain ⟨rfl, rfl⟩ := h
      exact hs
  case pensize v =>
    simp only [step] at h
    simp only [Option.some.injEq, Prod.mk.injEq] at h
    obtain ⟨rfl, rfl⟩ := h
    exact hs
  case endCapSides n =>
    simp only [step] at h
    by_cases hn : n < 2 ∨ n % 2 = 1
    · rw [if_pos hn] at h
      exact Option.noConfusion h
    · rw [if_neg hn] at h
      simp only [Option.some.injEq, Prod.mk.injEq] at h
      obtain ⟨rfl, rfl⟩ := h
      exact hs
  case forward dist =>
    simp only [step] at h
    by_cases hp : s.pendown = true
    · simp only [if_pos hp, Option.some.injEq, Prod.mk.injEq] at h
      obtain ⟨rfl, rfl⟩ := h
      intro _
      have hlen := hs hp
      simp only [List.length_append, List.length_singleton]
      omega
    · simp only [if_neg hp, Option.some.injEq, Prod.mk.injEq] at h
      obtain ⟨rfl, rfl⟩ := h
      exact hs
  case right deg =>
    simp only [step] at h
    simp only [Option.some.injEq, Prod.mk.injEq] at h
    obtain ⟨rfl, rfl⟩ := h
    exact hs
  case left deg =>
    simp only [step] at h
    simp only [Option.some.injEq, Prod.mk.injEq] at h
    obtain ⟨rfl, rfl⟩ := h
    exact hs
  case setpos px py =>
    simp only [step] at h
    by_cases hp : s.pendown = true
    · simp only [if_pos hp, Option.some.injEq, Prod.mk.injEq] at h
      obtain ⟨rfl, rfl⟩ := h
      intro _
      have hlen := hs hp
      simp only [List.length_append, List.length_singleton]
      omega
    · simp only [if_neg hp, Option.some.injEq, Prod.mk.injEq] at h
      obtain ⟨rfl, rfl⟩ := h
      exact hs

lemma run_inv :
    ∀ (cmds : List Cmd) (s s2 : TurtleState) (polys : List TurtlePolygon),
      (s.pendown = true → s.polygon.Points.length = s.polygon.Headings.length + 1) →
      run s cmds = some (s2, polys) →
      s2.pendown = true → s2.polygon.Points.length = s2.polygon.Headings.length + 1 := by
  intro cmds
  induction cmds with
  | nil =>
    intro s s2 polys hs h
    simp only [run] at h
    simp only [Option.some.injEq, Prod.mk.injEq] at h
    obtain ⟨rfl, rfl⟩ := h
    exact hs
  | cons c cs ih =>
    intro s s2 polys hs h
    simp only [run] at h
    obtain ⟨⟨s1, out⟩, hstep, h2⟩ := Option.bind_eq_some.mp h
    obtain ⟨⟨s3, outs⟩, hrun, h3⟩ := Option.map_eq_some'.mp h2
    simp only [Prod.mk.injEq] at h3
    obtain ⟨rfl, rfl⟩ := h3
    exact ih s1 _ outs (step_inv s c s1 out hs hstep) hrun

/-- C1: along every run from the initial state, whenever the pen is
down the in-progress stroke path satisfies
`len(Points) = len(Headings) + 1` (in particular through any sequence
of forward/setpos commands between a pendown and the matching penup);
and `penup` checks exactly this equality on the finalized path and
aborts fatally, producing no polygon, when it is violated. -/
theorem path_invariant :
    (∀ (cmds : List Cmd) (s2 : TurtleState) (polys : List TurtlePolygon),
      run initState cmds = some (s2, polys) →
      s2.pendown = true →
      s2.polygon.Points.length = s2.polygon.Headings.length + 1) ∧
    (∀ s : TurtleState, s.pendown = true →
      s.polygon.Points.length ≠ s.polygon.Headings.length + 1 →
      step s Cmd.penup = none) := by
  constructor
  · intro cmds s2 polys h
    exact run_inv cmds initState s2 polys (fun hpd => Bool.noConfusion hpd) h
  · intro s hpd hbad
    simp only [step]
    rw [if_pos hpd, if_pos hbad]

/-- Witness for C1: a pendown run reaches a pen-down state satisfying
the invariant, and the penup check fires on an invariant-violating
state. -/
theorem path_invariant_witness :
    run initState [Cmd.pendown] = some (pendownState, []) ∧
    (pendownState.pendown = true →
      pendownState.polygon.Points.length =
        pendownState.polygon.Headings.length + 1) ∧
    badState.pendown = true ∧
    badState.polygon.Points.length ≠ badState.polygon.Headings.length + 1 ∧
    step badState Cmd.penup = none :=
  ⟨rfl, path_invariant.1 [Cmd.pendown] pendownState [] rfl, rfl, by decide,
    path_invariant.2 badState rfl (by decide)⟩

/-- C8: `setpos(x, y)` teleports the cursor to `(x, y)`, leaves the
turtle heading variable (as read by `heading()`) unchanged, never
fails, finalizes no polygon, and, when the pen is down, appends exactly
one point and one heading, the heading being
`atan2(y - py, x - px)` converted to degrees (with `(px, py)` the
previous position); pen-up leaves the path untouched. -/
theorem setpos_effect (s : TurtleState) (px py : ℝ) :
    (step s (Cmd.setpos px py)).isSome = true ∧
    ∀ (s2 : TurtleState) (out : List TurtlePolygon),
      step s (Cmd.setpos px py) = some (s2, out) →
      s2.x = px ∧ s2.y = py ∧ out = [] ∧
      s2.heading = s.heading ∧ headingRead s2 = headingRead s ∧
      (s.pendown = true →
        s2.polygon.Points =
          s.polygon.Points ++ [⟨px, py, s.penSize, s.endCapSides⟩] ∧
        s2.polygon.Headings =
          s.polygon.Headings ++ [radToDeg (atan2 (py - s.y) (px - s.x))]) ∧
      (s.pendown = false → s2.polygon = s.polygon) := by
  by_cases hp : s.pendown = true
  · constructor
    · simp only [step]
      rw [if_pos hp]
      rfl
    · intro s2 out h
      simp only [step] at h
      simp only [if_pos hp, Option.some.injEq, Prod.mk.injEq] at h
      obtain ⟨rfl, rfl⟩ := h
      refine ⟨rfl, rfl, rfl, rfl, rfl, fun _ => ⟨rfl, rfl⟩, fun hpd => ?_⟩
      rw [hp] at hpd
      exact Bool.noConfusion hpd
  · constructor
    · simp only [step]
      rw [if_neg hp]
      rfl
    · intro s2 out h
      simp only [step] at h
      simp only [if_neg hp, Option.some.injEq, Prod.mk.injEq] at h
      obtain ⟨rfl, rfl⟩ := h
      refine ⟨rfl, rfl, rfl, rfl, rfl, fun hpd => absurd hpd hp, fun _ => rfl⟩

/-- Witness for C8 on the concrete pen-down state and `setpos(3, 4)`. -/
theorem setpos_effect_witness :
    step pendownState (Cmd.setpos 3 4) = some (setposState, []) ∧
    (setposState.x = 3 ∧ setposState.y = 4 ∧ ([] : List TurtlePolygon) = [] ∧
      setposState.heading = pendownState.heading ∧
      headingRead setposState = headingRead pendownState ∧
      (pendownState.pendown = true →
        setposState.polygon.Points =
          pendownState.polygon.Points ++
            [⟨3, 4, pendownState.penSize, pendownState.endCapSides⟩] ∧
        setposState.polygon.Headings =
          pendownState.polygon.Headings ++
            [radToDeg (atan2 (4 - pendownState.y) (3 - pendownState.x))]) ∧
      (pendownState.pendown = false →
        setposState.polygon = pendownState.polygon)) :=
  ⟨rfl, (setpos_effect pendownState 3 4).2 setposState [] rfl⟩

/-- C10: `pensize(v)` stores `v` as the pen width and never signals an
error, for every `v` including zero and negative values (there is no
positivity validation, unlike `end_cap_sides`); a subsequent pen-down
`forward` appends a stroke point carrying exactly that thickness `v`. -/
theorem pensize_no_validation (s : TurtleState) (v dist : ℝ) :
    step s (Cmd.pensize v) = some ({ s with penSize := v }, []) ∧
    ∀ s1 : TurtleState, s1.penSize = v → s1.pendown = true →
      ∀ (s2 : TurtleState) (out : List TurtlePolygon),
        step s1 (Cmd.forward dist) = some (s2, out) →
        out = [] ∧
        s2.polygon.Points = s1.polygon.Points ++
          [⟨s1.x + dist * degCos s1.heading, s1.y + dist * degSin s1.heading,
            v, s1.endCapSides⟩] ∧
        s2.polygon.Headings = s1.polygon.Headings ++ [s1.heading] := by
  constructor
  · rfl
  · intro s1 hv hp s2 out h
    simp only [step] at h
    simp only [if_pos hp, Option.some.injEq, Prod.mk.injEq] at h
    obtain ⟨rfl, rfl⟩ := h
    subst hv
    exact ⟨rfl, rfl, rfl⟩

/-- Witness for C10: setting the (invalid in spirit, accepted in code)
negative width -1 and moving forward with the pen down. -/
theorem pensize_no_validation_witness :
    step pendownState (Cmd.pensize (-1)) =
      some ({ pendownState with penSize := -1 }, []) ∧
    negWidthState.penSize = -1 ∧ negWidthState.pendown = true ∧
    step negWidthState (Cmd.forward 1) = some (negFwdState, []) ∧
    (([] : List TurtlePolygon) = [] ∧
      negFwdState.polygon.Points = negWidthState.polygon.Points ++
        [⟨negWidthState.x + 1 * degCos negWidthState.heading,
          negWidthState.y + 1 * degSin negWidthState.heading,
          -1, negWidthState.endCapSides⟩] ∧
      negFwdState.polygon.Headings =
        negWidthState.polygon.Headings ++ [negWidthState.heading]) :=
  ⟨(pensize_no_validation pendownState (-1) 1).1, rfl, rfl, rfl,
    (pensize_no_validation pendownState (-1) 1).2 negWidthState rfl rfl
      negFwdState [] rfl⟩

/-! ## Closed form of the two-pass index traversal -/

lemma visitsGo_bwd (last : ℕ) :
    ∀ fuel i, 1 ≤ i → i ≤ fuel →
      visitsGo last fuel (-1) i = (List.range i).map fun k => (i - k, (-1 : ℤ)) := by
  intro fuel
  induction fuel with
  | zero => intro i h1 h2; exact absurd h2 (by omega)
  | succ fuel ih =>
    intro i h1 h2
    simp only [visitsGo]
    have hd2 : (if i = last ∧ (-1 : ℤ) = 1 then (-1 : ℤ) else -1) = -1 := by
      split <;> rfl
    rw [hd2, if_neg (show ¬ ((-1 : ℤ) = 1) from by decide)]
    by_cases hi : i = 1
    · subst hi
      rw [if_pos ⟨rfl, rfl⟩]
      rfl
    · rw [if_neg (by simp [hi])]
      obtain ⟨m, rfl⟩ : ∃ m, i = m + 1 := ⟨i - 1, by omega⟩
      have hm : 1 ≤ m := by omega
      rw [show m + 1 - 1 = m from rfl, ih m hm (by omega)]
      rw [List.range_succ_eq_map, List.map_cons, List.map_map]
      refine List.cons_eq_cons.mpr ⟨rfl, ?_⟩
      apply List.map_congr_left
      intro k hk
      simp only [Function.comp_apply, Prod.mk.injEq]
      exact ⟨by omega, trivial⟩

lemma visitsGo_fwd (last : ℕ) (hlast : 1 ≤ last) :
    ∀ fuel i, i ≤ last → 2 * last ≤ fuel + i →
      visitsGo last fuel 1 i =
        ((List.range (last + 1 - i)).map fun k => (i + k, (1 : ℤ))) ++
        ((List.range (last - 1)).map fun k => (last - 1 - k, (-1 : ℤ))) := by
  intro fuel
  induction fuel with
  | zero => intro i h1 h2; exact absurd h2 (by omega)
  | succ fuel ih =>
    intro i h1 h2
    simp only [visitsGo]
    by_cases hi : i = last
    · subst hi
      have hd2 : (if i = i ∧ True then (-1 : ℤ) else 1) = -1 := if_pos ⟨rfl, trivial⟩
      rw [hd2]
      by_cases hl1 : i = 1
      · subst hl1
        rw [if_pos ⟨rfl, rfl⟩]
        rfl
      · rw [if_neg (by simp [hl1])]
        rw [if_neg (show ¬ ((-1 : ℤ) = 1) from by decide)]
        rw [visitsGo_bwd i fuel (i - 1) (by omega) (by omega)]
        rw [show i + 1 - i = 1 from by omega]
        rfl
    · have hd2 : (if i = last ∧ True then (-1 : ℤ) else 1) = 1 := by
        rw [if_neg (by simp [hi])]
      rw [hd2]
      rw [if_neg (by simp)]
      rw [if_pos rfl]
      rw [ih (i + 1) (by omega) (by omega)]
      have hm : last + 1 - i = (last - i) + 1 := by omega
      rw [hm, List.range_succ_eq_map, List.map_cons, List.map_map,
        List.cons_append]
      refine List.cons_eq_cons.mpr ⟨rfl, ?_⟩
      have hm2 : last + 1 - (i + 1) = last - i := by omega
      rw [hm2]
      refine congrArg (fun l => l ++ _) ?_
      apply List.map_congr_left
      intro k hk
      simp only [Function.comp_apply, Prod.mk.injEq]
      exact ⟨by omega, trivial⟩

/-- The visit sequence of the loop on a path of at least two points:
all indices `0 .. last` forward with `d = 1`, then `last-1 .. 1`
backward with `d = -1`. -/
lemma visits_eq (poly : TurtlePolygon) (h : 2 ≤ poly.Points.length) :
    visits poly =
      ((List.range poly.Points.length).map fun i => (i, (1 : ℤ))) ++
      ((List.range (poly.Points.length - 2)).map
        fun k => (poly.Points.length - 2 - k, (-1 : ℤ))) := by
  unfold visits
  rw [visitsGo_fwd (poly.Points.length - 1) (by omega)
    (2 * poly.Points.length) 0 (by omega) (by omega)]
  congr 1
  rw [show poly.Points.length - 1 + 1 - 0 = poly.Points.length from by omega]
  apply List.map_congr_left
  intro k hk
  rw [Nat.zero_add]

/-- The emitted vertex list of `writePolygon` on a path of at least two
points decomposes as begin cap, forward joins, end cap, backward joins. -/
lemma writePolygon_decomp (poly : TurtlePolygon) (h : 2 ≤ poly.Points.length) :
    writePolygon poly =
      beginCap poly ++ interiorFwd poly ++
        endCap poly (poly.Points.length - 1) ++ interiorBwd poly := by
  obtain ⟨m, hm⟩ : ∃ m, poly.Points.length = m + 2 := ⟨poly.Points.length - 2, by omega⟩
  unfold writePolygon
  rw [if_neg (by omega), visits_eq poly h, List.flatMap_append,
    List.flatMap_map, List.flatMap_map]
  have hemit0 : emitAt poly 0 1 = beginCap poly := by
    unfold emitAt
    rw [if_pos rfl]
  have hemitLast : emitAt poly (m + 1) 1 = endCap poly (m + 1) := by
    unfold emitAt
    rw [if_neg (by omega), if_pos (by omega)]
  have hmid : ((List.range m).flatMap fun x => emitAt poly x.succ 1) =
      interiorFwd poly := by
    unfold interiorFwd
    rw [hm, show m + 2 - 2 = m from rfl, List.flatMap_map]
  have hfwd : (List.range poly.Points.length).flatMap
      (fun i => emitAt poly (i, (1 : ℤ)).1 (i, (1 : ℤ)).2) =
      beginCap poly ++ interiorFwd poly ++ endCap poly (poly.Points.length - 1) := by
    rw [hm, List.range_succ, List.range_succ_eq_map]
    simp only [List.flatMap_append, List.flatMap_cons, List.flatMap_map,
      List.flatMap_nil, List.append_nil, show m + 2 - 1 = m + 1 from rfl]
    rw [hemit0, hemitLast, hmid]
  have hbwd : (List.range (poly.Points.length - 2)).flatMap
      (fun k => emitAt poly (poly.Points.length - 2 - k, (-1 : ℤ)).1
        (poly.Points.length - 2 - k, (-1 : ℤ)).2) =
      interiorBwd poly := by
    unfold interiorBwd
    rw [List.flatMap_map]
  rw [hfwd, hbwd, List.append_assoc, List.append_assoc]

/-- C7: on a path of at least two points the two-pass traversal
terminates with the closed-form visit sequence: every index `0..last`
with direction `+1` (the single direction flip to `-1` happens right
after processing the last index), then `last-1..1` with direction `-1`,
the loop breaking after processing index 1 on the return leg; in
particular index 0 and the last index are each visited exactly once, so
the begin cap and the end cap are each emitted exactly once. -/
theorem traversal_termination (poly : TurtlePolygon)
    (h : 2 ≤ poly.Points.length) :
    visits poly =
      ((List.range poly.Points.length).map fun i => (i, (1 : ℤ))) ++
      ((List.range (poly.Points.length - 2)).map
        fun k => (poly.Points.length - 2 - k, (-1 : ℤ))) ∧
    ((visits poly).map Prod.fst).count 0 = 1 ∧
    ((visits poly).map Prod.fst).count (poly.Points.length - 1) = 1 := by
  refine ⟨visits_eq poly h, ?_, ?_⟩
  · rw [visits_eq poly h, List.map_append, List.map_map, List.map_map]
    rw [show (Prod.fst ∘ fun i : ℕ => (i, (1 : ℤ))) = fun i : ℕ => i from rfl]
    rw [show (Prod.fst ∘ fun k : ℕ =>
        (poly.Points.length - 2 - k, (-1 : ℤ))) =
      fun k : ℕ => poly.Points.length - 2 - k from rfl]
    rw [List.count_append]
    have h1 : (List.range poly.Points.length).count 0 = 1 := by
      rw [show List.range poly.Points.length =
        (List.range poly.Points.length).map (fun i => i) from by simp]
      exact List.count_eq_one_of_mem
        (by simp [List.nodup_range]) (by simp; omega)
    have h2 : ((List.range (poly.Points.length - 2)).map
        fun k : ℕ => poly.Points.length - 2 - k).count 0 = 0 := by
      rw [List.count_eq_zero]
      intro hmem
      simp only [List.mem_map, List.mem_range] at hmem
      obtain ⟨k, hk, hv⟩ := hmem
      omega
    rw [h2]
    rw [show ((List.range poly.Points.length).map fun i : ℕ => i) =
      List.range poly.Points.length from by simp]
    rw [h1]
  · rw [visits_eq poly h, List.map_append, List.map_map, List.map_map]
    rw [show (Prod.fst ∘ fun i : ℕ => (i, (1 : ℤ))) = fun i : ℕ => i from rfl]
    rw [show (Prod.fst ∘ fun k : ℕ =>
        (poly.Points.length - 2 - k, (-1 : ℤ))) =
      fun k : ℕ => poly.Points.length - 2 - k from rfl]
    rw [List.count_append]
    have h1 : (List.range poly.Points.length).count
        (poly.Points.length - 1) = 1 :=
      List.count_eq_one_of_mem (List.nodup_range _)
        (List.mem_range.mpr (by omega))
    have h2 : ((List.range (poly.Points.length - 2)).map
        fun k : ℕ => poly.Points.length - 2 - k).count
        (poly.Points.length - 1) = 0 := by
      rw [List.count_eq_zero]
      intro hmem
      simp only [List.mem_map, List.mem_range] at hmem
      obtain ⟨k, hk, hv⟩ := hmem
      omega
    rw [h2]
    rw [show ((List.range poly.Points.length).map fun i : ℕ => i) =
      List.range poly.Points.length from by simp]
    rw [h1]

/-- Witness for C7 on the concrete three-point path. -/
theorem traversal_termination_witness :
    2 ≤ collinearPoly.Points.length ∧
    (visits collinearPoly =
      ((List.range collinearPoly.Points.length).map fun i => (i, (1 : ℤ))) ++
      ((List.range (collinearPoly.Points.length - 2)).map
        fun k => (collinearPoly.Points.length - 2 - k, (-1 : ℤ))) ∧
    ((visits collinearPoly).map Prod.fst).count 0 = 1 ∧
    ((visits collinearPoly).map Prod.fst).count
      (collinearPoly.Points.length - 1) = 1) :=
  ⟨by decide, traversal_termination collinearPoly (by decide)⟩

/-- C2: on a path of at least two points the emitted outline is the
begin cap (exactly `EndCapSides/2 + 1` vertices on the circle of radius
`Thickness/2` around `Points[0]`, the `j`-th at angle
`Headings[0] - 90 - j*(360/EndCapSides)`), then the forward-pass joins,
then the end cap (exactly `EndCapSides/2 + 1` vertices around the last
point, the `j`-th at angle
`Headings[last-1] + 90 - j*(360/EndCapSides)`), then the backward-pass
joins. -/
theorem cap_emission (poly : TurtlePolygon) (h : 2 ≤ poly.Points.length) :
    writePolygon poly =
      ((List.range ((poly.Points.getD 0 defaultPt).EndCapSides / 2 + 1)).map
          fun (j : ℕ) =>
            ((poly.Points.getD 0 defaultPt).X +
              (poly.Points.getD 0 defaultPt).Thickness / 2 *
                degCos (poly.Headings.getD 0 0 - 90 - (j : ℝ) *
                  (360 / ((poly.Points.getD 0 defaultPt).EndCapSides : ℝ))),
             (poly.Points.getD 0 defaultPt).Y +
              (poly.Points.getD 0 defaultPt).Thickness / 2 *
                degSin (poly.Headings.getD 0 0 - 90 - (j : ℝ) *
                  (360 / ((poly.Points.getD 0 defaultPt).EndCapSides : ℝ))))) ++
      interiorFwd poly ++
      ((List.range
          ((poly.Points.getD (poly.Points.length - 1) defaultPt).EndCapSides / 2
            + 1)).map
          fun (j : ℕ) =>
            ((poly.Points.getD (poly.Points.length - 1) defaultPt).X +
              (poly.Points.getD (poly.Points.length - 1) defaultPt).Thickness / 2 *
                degCos (poly.Headings.getD (poly.Points.length - 1 - 1) 0 + 90 -
                  (j : ℝ) * (360 /
                    ((poly.Points.getD (poly.Points.length - 1)
                      defaultPt).EndCapSides : ℝ))),
             (poly.Points.getD (poly.Points.length - 1) defaultPt).Y +
              (poly.Points.getD (poly.Points.length - 1) defaultPt).Thickness / 2 *
                degSin (poly.Headings.getD (poly.Points.length - 1 - 1) 0 + 90 -
                  (j : ℝ) * (360 /
                    ((poly.Points.getD (poly.Points.length - 1)
                      defaultPt).EndCapSides : ℝ))))) ++
      interiorBwd poly := by
  rw [writePolygon_decomp poly h]
  have hb : beginCap poly =
      (List.range ((poly.Points.getD 0 defaultPt).EndCapSides / 2 + 1)).map
        fun (j : ℕ) =>
          ((poly.Points.getD 0 defaultPt).X +
            (poly.Points.getD 0 defaultPt).Thickness / 2 *
              degCos (poly.Headings.getD 0 0 - 90 - (j : ℝ) *
                (360 / ((poly.Points.getD 0 defaultPt).EndCapSides : ℝ))),
           (poly.Points.getD 0 defaultPt).Y +
            (poly.Points.getD 0 defaultPt).Thickness / 2 *
              degSin (poly.Headings.getD 0 0 - 90 - (j : ℝ) *
                (360 / ((poly.Points.getD 0 defaultPt).EndCapSides : ℝ)))) := by
    unfold beginCap
    apply List.map_congr_left
    intro j hj
    unfold capOffset
    rw [mul_div_assoc]
  have he : endCap poly (poly.Points.length - 1) =
      (List.range
          ((poly.Points.getD (poly.Points.length - 1) defaultPt).EndCapSides / 2
            + 1)).map
        fun (j : ℕ) =>
          ((poly.Points.getD (poly.Points.length - 1) defaultPt).X +
            (poly.Points.getD (poly.Points.length - 1) defaultPt).Thickness / 2 *
              degCos (poly.Headings.getD (poly.Points.length - 1 - 1) 0 + 90 -
                (j : ℝ) * (360 /
                  ((poly.Points.getD (poly.Points.length - 1)
                    defaultPt).EndCapSides : ℝ))),
           (poly.Points.getD (poly.Points.length - 1) defaultPt).Y +
            (poly.Points.getD (poly.Points.length - 1) defaultPt).Thickness / 2 *
              degSin (poly.Headings.getD (poly.Points.length - 1 - 1) 0 + 90 -
                (j : ℝ) * (360 /
                  ((poly.Points.getD (poly.Points.length - 1)
                    defaultPt).EndCapSides : ℝ)))) := by
    unfold endCap
    apply List.map_congr_left
    intro j hj
    unfold capOffset
    rw [mul_div_assoc]
  rw [hb, he]

/-- Witness for C2 on the concrete two-point path. -/
theorem cap_emission_witness :
    2 ≤ segmentPoly.Points.length ∧
    writePolygon segmentPoly =
      ((List.range
          ((segmentPoly.Points.getD 0 defaultPt).EndCapSides / 2 + 1)).map
          fun (j : ℕ) =>
            ((segmentPoly.Points.getD 0 defaultPt).X +
              (segmentPoly.Points.getD 0 defaultPt).Thickness / 2 *
                degCos (segmentPoly.Headings.getD 0 0 - 90 - (j : ℝ) *
                  (360 /
                    ((segmentPoly.Points.getD 0 defaultPt).EndCapSides : ℝ))),
             (segmentPoly.Points.getD 0 defaultPt).Y +
              (segmentPoly.Points.getD 0 defaultPt).Thickness / 2 *
                degSin (segmentPoly.Headings.getD 0 0 - 90 - (j : ℝ) *
                  (360 /
                    ((segmentPoly.Points.getD 0 defaultPt).EndCapSides : ℝ))))) ++
      interiorFwd segmentPoly ++
      ((List.range
          ((segmentPoly.Points.getD (segmentPoly.Points.length - 1)
            defaultPt).EndCapSides / 2 + 1)).map
          fun (j : ℕ) =>
            ((segmentPoly.Points.getD (segmentPoly.Points.length - 1)
                defaultPt).X +
              (segmentPoly.Points.getD (segmentPoly.Points.length - 1)
                defaultPt).Thickness / 2 *
                degCos (segmentPoly.Headings.getD
                    (segmentPoly.Points.length - 1 - 1) 0 + 90 -
                  (j : ℝ) * (360 /
                    ((segmentPoly.Points.getD (segmentPoly.Points.length - 1)
                      defaultPt).EndCapSides : ℝ))),
             (segmentPoly.Points.getD (segmentPoly.Points.length - 1)
                defaultPt).Y +
              (segmentPoly.Points.getD (segmentPoly.Points.length - 1)
                defaultPt).Thickness / 2 *
                degSin (segmentPoly.Headings.getD
                    (segmentPoly.Points.length - 1 - 1) 0 + 90 -
                  (j : ℝ) * (360 /
                    ((segmentPoly.Points.getD (segmentPoly.Points.length - 1)
                      defaultPt).EndCapSides : ℝ))))) ++
      interiorBwd segmentPoly :=
  ⟨by decide, cap_emission segmentPoly (by decide)⟩

/-- C4: the intersection denominator is not guarded by any tolerance.
On the doubling-back path (headings 0 then 180, so the two offset edge
lines are parallel and distinct) the interior join takes the
intersection branch with a denominator of exactly zero and divides by
it; the emitted vertex is the division-by-zero value (0 in this real
model; a non-finite float in Go), not the collinear-case offset vertex
the specification requires for this degenerate geometry. -/
theorem unguarded_intersection_division :
    headingPrevAt reversalPoly 1 1 ≠ headingNextAt reversalPoly 1 1 ∧
    denomAt reversalPoly 1 1 = 0 ∧
    emitAt reversalPoly 1 1 = [((0 : ℝ), 0)] ∧
    emitAt reversalPoly 1 1 ≠
      [capOffset (reversalPoly.Points.getD 1 defaultPt)
        (headingPrevAt reversalPoly 1 1 + 90 * ((1 : ℤ) : ℝ))] := by
  have hp : headingPrevAt reversalPoly 1 1 = 0 := rfl
  have hn : headingNextAt reversalPoly 1 1 = 180 := rfl
  have hang1 : headingPrevAt reversalPoly 1 1 + 90 * ((1 : ℤ) : ℝ) = 90 := by
    rw [hp]
    push_cast
    ring
  have hang2 : headingNextAt reversalPoly 1 1 + 90 * ((1 : ℤ) : ℝ) = 270 := by
    rw [hn]
    push_cast
    ring
  have hc1 : joinCorner1 reversalPoly 1 1 = ((0 : ℝ), 1) := by
    unfold joinCorner1
    rw [hang1]
    rw [show reversalPoly.Points.getD (((1 : ℕ) : ℤ) - 1).toNat defaultPt =
      (⟨0, 0, 2, 4⟩ : TurtlePoint) from rfl]
    unfold capOffset
    rw [degCos_ninety, degSin_ninety]
    norm_num
  have hc2 : joinCorner2 reversalPoly 1 1 = ((1 : ℝ), 1) := by
    unfold joinCorner2
    rw [hang1]
    rw [show reversalPoly.Points.getD 1 defaultPt =
      (⟨1, 0, 2, 4⟩ : TurtlePoint) from rfl]
    unfold capOffset
    rw [degCos_ninety, degSin_ninety]
    norm_num
  have hc3 : joinCorner3 reversalPoly 1 1 = ((1 : ℝ), -1) := by
    unfold joinCorner3
    rw [hang2]
    rw [show reversalPoly.Points.getD 1 defaultPt =
      (⟨1, 0, 2, 4⟩ : TurtlePoint) from rfl]
    unfold capOffset
    rw [degCos_twoSeventy, degSin_twoSeventy]
    norm_num
  have hc4 : joinCorner4 reversalPoly 1 1 = ((0 : ℝ), -1) := by
    unfold joinCorner4
    rw [hang2]
    rw [show reversalPoly.Points.getD (((1 : ℕ) : ℤ) + 1).toNat defaultPt =
      (⟨0, 0, 2, 4⟩ : TurtlePoint) from rfl]
    unfold capOffset
    rw [degCos_twoSeventy, degSin_twoSeventy]
    norm_num
  have hden : denomAt reversalPoly 1 1 = 0 := by
    unfold denomAt
    rw [hc1, hc2, hc3, hc4]
    norm_num
  have hx : interX reversalPoly 1 1 = 0 := by
    unfold interX
    rw [hden, div_zero]
  have hy : interY reversalPoly 1 1 = 0 := by
    unfold interY
    rw [hden, div_zero]
  have hemit : emitAt reversalPoly 1 1 = [((0 : ℝ), 0)] := by
    unfold emitAt
    rw [if_neg (by decide), if_neg (by decide)]
    unfold joinAt
    rw [if_neg (show ¬ (headingPrevAt reversalPoly 1 1 =
      headingNextAt reversalPoly 1 1) from by rw [hp, hn]; norm_num)]
    rw [hx, hy]
  refine ⟨by rw [hp, hn]; norm_num, hden, hemit, ?_⟩
  rw [hemit, hang1]
  rw [show reversalPoly.Points.getD 1 defaultPt =
    (⟨1, 0, 2, 4⟩ : TurtlePoint) from rfl]
  unfold capOffset
  rw [degCos_ninety, degSin_ninety]
  intro hEq
  have h0 : ((0 : ℝ), (0 : ℝ)) = ((1 : ℝ) + 2 / 2 * 0, 0 + 2 / 2 * 1) :=
    List.cons_eq_cons.mp hEq |>.1
  have h00 : (0 : ℝ) = 1 + 2 / 2 * 0 := congrArg Prod.fst h0
  norm_num at h00

/-- Full evaluation of the outliner on the two-point scenario path:
six vertices, the three begin-cap vertices then the three end-cap
vertices (the long straight edges are implicit between the last vertex
of one cap and the first vertex of the other). -/
lemma segment_outline :
    writePolygon segmentPoly =
      [((0 : ℝ), (-1 : ℝ)), (-1, 0), (0, 1), (1, 1), (2, 0), (1, -1)] := by
  have hv : visits segmentPoly = [(0, 1), (1, 1)] := by decide
  have he0 : emitAt segmentPoly 0 1 =
      [((0 : ℝ), (-1 : ℝ)), (-1, 0), (0, 1)] := by
    unfold emitAt
    rw [if_pos rfl]
    simp only [beginCap]
    norm_num [capOffset, segmentPoly, show List.range 3 = [0, 1, 2] from rfl,
      degCos_neg, degSin_neg, degCos_ninety, degSin_ninety,
      degCos_oneEighty, degSin_oneEighty, degCos_twoSeventy, degSin_twoSeventy]
  have he1 : emitAt segmentPoly 1 1 =
      [((1 : ℝ), (1 : ℝ)), (2, 0), (1, -1)] := by
    unfold emitAt
    rw [if_neg (by decide), if_pos (by decide)]
    simp only [endCap]
    norm_num [capOffset, segmentPoly, show List.range 3 = [0, 1, 2] from rfl,
      degCos_neg, degSin_neg, degCos_ninety, degSin_ninety, degCos_zero,
      degSin_zero, degCos_oneEighty, degSin_oneEighty]
  unfold writePolygon
  rw [if_neg (by decide), hv]
  simp only [List.flatMap_cons, List.flatMap_nil, List.append_nil]
  rw [he0, he1]
  rfl

/-- Counterexample to C5: the outliner emits 6 vertices on the
scenario path, not 8. -/
theorem scenario_vertex_count_not_eight :
    (writePolygon segmentPoly).length ≠ 8 := by
  rw [segment_outline]
  simp

/-- C5 (amended): on the path `[(0,0),(1,0)]` with heading `[0]`,
width 2 and 4 cap facets the outliner emits exactly 6 vertices: the
3-vertex begin cap at `(0,0)` (angles -90, -180, -270), then the
3-vertex end cap at `(1,0)` (angles 90, 0, -90); no separate
straight-edge vertices are emitted, the two long edges being implicit
between the cap end vertices. -/
theorem scenario_six_vertices :
    writePolygon segmentPoly =
      [((0 : ℝ), (-1 : ℝ)), (-1, 0), (0, 1), (1, 1), (2, 0), (1, -1)] ∧
    (writePolygon segmentPoly).length = 6 := by
  refine ⟨segment_outline, ?_⟩
  rw [segment_outline]
  rfl

end GoScad